import Mathlib

/-
Verification of the schema-driven row ingestion pipeline of ETLSQL.py.

The embedding models, from the source:
  - the Python lower() comparisons used for type dispatch and for detecting
    the managed execution-marker column Bi_ejecucion;
  - the per-field type coercion performed in carga_manual (int(), float(),
    the bit literal table, datetime.strptime with format %Y-%m-%d);
  - the batch pipeline carga_por_archivo: column reconciliation, the per-row
    blank-value check, per-row insert/commit with error capture, counters;
  - the interactive pipeline carga_manual: per-field retry, the automatic
    Bi_ejecucion value, per-row insert/commit with error capture, counters;
  - the log emission performed at the end of both functions (summary text,
    inserted-rows CSV, errors CSV).

Database verdicts (success of cursor.execute + commit for one row) are an
oracle parameter: a function from the row number and the bound values to
an optional driver error message.
-/

deriving instance DecidableEq for Except

namespace ETLSQL

/-- The apostrophe character, used by Python error message renderings. -/
def comilla : String := String.singleton (Char.ofNat 39)

/-- Python str.lower restricted to the characters this program compares:
ASCII letters plus the accented I appearing in the literal "sí". -/
def pyLowerChar (c : Char) : Char :=
  if c = 'Í' then 'í' else c.toLower

/-- Model of Python str.lower as used by the source. -/
def lowerStr (s : String) : String := String.mk (s.toList.map pyLowerChar)

/-- Whitespace characters removed by Python str.strip. -/
def esEspacio (c : Char) : Bool :=
  c == ' ' || c == '\t' || c == '\n' || c == '\r' ||
    c == Char.ofNat 11 || c == Char.ofNat 12

/-- Drop leading whitespace. -/
def quitaEspacios : List Char → List Char
  | [] => []
  | c :: rest => if esEspacio c then quitaEspacios rest else c :: rest

/-- Python str.strip: whitespace removed from both ends. -/
def pyStrip (s : String) : String :=
  String.mk ((quitaEspacios (quitaEspacios s.toList).reverse).reverse)

/-- The managed-column test used at ETLSQL.py:247 and ETLSQL.py:403:
col.lower() == "bi_ejecucion". -/
def isBiEjecucion (col : String) : Bool := lowerStr col == "bi_ejecucion"

/-- ETLSQL.py:403 — the target columns with the managed column filtered out. -/
def columnasSinEjecucion (cols : List String) : List String :=
  cols.filter (fun c => !(isBiEjecucion c))

/-- A cell of a source row, as pandas hands it over: a missing value (NaN)
or a present scalar, modelled by its textual content. -/
inductive Cell where
  | na : Cell
  | val : String → Cell
deriving DecidableEq

/-- A source row: an ordered mapping from file column name to cell. -/
abbrev Row := List (String × Cell)

/-- Lookup fila[col]; none models a KeyError (unreachable for rows coming
from a DataFrame, which carries every file column in every row). -/
def getCell (fila : Row) (col : String) : Option Cell :=
  (fila.find? (fun p => p.1 == col)).map (fun p => p.2)

/-- Rendering used by the error snapshot at ETLSQL.py:459:
empty string for a missing value, str(val) otherwise. -/
def cellStr : Option Cell → String
  | none => ""
  | some Cell.na => ""
  | some (Cell.val v) => v

/-- Python ", ".join. -/
def commaJoin : List String → String
  | [] => ""
  | [c] => c
  | c :: rest => c ++ ", " ++ commaJoin rest

/-- str(KeyError(col)) as Python renders it. -/
def keyErrorMsg (col : String) : String := comilla ++ col ++ comilla

/-- The blank-field message raised at ETLSQL.py:446. -/
def campoBlancoMsg (col : String) (rowNum : Nat) : String :=
  "Campo " ++ comilla ++ col ++ comilla ++ " en blanco (fila " ++ toString rowNum ++ ")"

/-- traceback.format_exc(), modelled as a function of the message. -/
def tbOf (e : String) : String := "Traceback: " ++ e

/-- ETLSQL.py:440-448 — walk the non-managed columns in order, refusing the
row at the first missing/blank value, otherwise collecting the raw values
unchanged (the source appends val with no conversion). -/
def buildValores (cols : List String) (fila : Row) (rowNum : Nat) :
    Except String (List String) :=
  match cols with
  | [] => Except.ok []
  | col :: rest =>
    match getCell fila col with
    | none => Except.error (keyErrorMsg col)
    | some Cell.na => Except.error (campoBlancoMsg col rowNum)
    | some (Cell.val v) =>
      match buildValores rest fila rowNum with
      | Except.ok vs => Except.ok (v :: vs)
      | Except.error m => Except.error m

/-- ETLSQL.py:459 — snapshot of a failed row over the non-managed columns,
missing values rendered as the empty string. -/
def rowData (cols : List String) (fila : Row) : List (String × String) :=
  cols.map (fun c => (c, cellStr (getCell fila c)))

/-- ETLSQL.py:460-465 — one failure record of the batch pipeline. -/
structure ErrArchivo where
  row : Nat
  error : String
  tb : String
  snapshot : List (String × String)
deriving DecidableEq

/-- The counters and the error list of carga_por_archivo. -/
structure EstadoArchivo where
  filas_procesadas : Nat
  filas_cargadas : Nat
  errores : List ErrArchivo
deriving DecidableEq

/-- ETLSQL.py:436-465 — processing of one DataFrame row: count it, build the
values (blank check), attempt the parameterized insert + commit through the
database oracle, and either count the success or append a failure record. -/
def procesarFilaArchivo (cols : List String) (db : Nat → List String → Option String)
    (st : EstadoArchivo) (fila : Row) : EstadoArchivo :=
  let rowNum := st.filas_procesadas + 1
  match buildValores cols fila rowNum with
  | Except.ok valores =>
    match db rowNum valores with
    | none =>
      { filas_procesadas := rowNum, filas_cargadas := st.filas_cargadas + 1,
        errores := st.errores }
    | some e =>
      { filas_procesadas := rowNum, filas_cargadas := st.filas_cargadas,
        errores := st.errores ++ [⟨rowNum, e, tbOf e, rowData cols fila⟩] }
  | Except.error m =>
    { filas_procesadas := rowNum, filas_cargadas := st.filas_cargadas,
      errores := st.errores ++ [⟨rowNum, m, tbOf m, rowData cols fila⟩] }

/-- ETLSQL.py:407 — target non-managed columns absent from the file. -/
def columnasFaltantes (sqlCols fileCols : List String) : List String :=
  (columnasSinEjecucion sqlCols).filter (fun c => !(fileCols.contains c))

/-- ETLSQL.py:408 — file columns absent from the target non-managed set. -/
def columnasSobrantes (sqlCols fileCols : List String) : List String :=
  fileCols.filter (fun c => !((columnasSinEjecucion sqlCols).contains c))

/-- ETLSQL.py:359-465 — the batch pipeline after the file has been read:
reconcile columns (rejecting with the two mismatch lists before any row is
attempted), then fold the per-row processing over the source rows. -/
def cargaPorArchivo (sqlCols fileCols : List String) (rows : List Row)
    (db : Nat → List String → Option String) :
    Except (List String × List String) EstadoArchivo :=
  if (columnasFaltantes sqlCols fileCols).isEmpty &&
      (columnasSobrantes sqlCols fileCols).isEmpty then
    Except.ok (rows.foldl (procesarFilaArchivo (columnasSinEjecucion sqlCols) db) ⟨0, 0, []⟩)
  else
    Except.error (columnasFaltantes sqlCols fileCols, columnasSobrantes sqlCols fileCols)

/-- ETLSQL.py:450-452 — the batch insert statement: placeholders for the
non-managed columns only, Bi_ejecucion supplied by GETDATE(). -/
def sentenciaArchivo (tabla : String) (colsSin : List String) : String :=
  "INSERT INTO [" ++ tabla ++ "] (" ++ commaJoin colsSin ++
    ", Bi_ejecucion) VALUES (" ++ commaJoin (colsSin.map (fun _ => "?")) ++ ", GETDATE())"

/-- ETLSQL.py:290-291 — the interactive insert statement: one placeholder
per table column, the managed column included. -/
def sentenciaManual (tabla : String) (columnas : List String) : String :=
  "INSERT INTO [" ++ tabla ++ "] VALUES (" ++
    commaJoin (columnas.map (fun _ => "?")) ++ ")"

/-- Value of a digit character. -/
def digitVal (c : Char) : Nat := c.toNat - 48

/-- A nonempty all-digit run and its value. -/
def digitosNat (cs : List Char) : Option Nat :=
  if cs.isEmpty then none
  else if cs.all Char.isDigit then
    some (cs.foldl (fun a c => a * 10 + digitVal c) 0)
  else none

/-- Python int(entrada): optional surrounding whitespace, optional sign,
then decimal digits. (Underscore digit separators are not modelled.) -/
def pyInt (s : String) : Option Int :=
  match (pyStrip s).toList with
  | '-' :: rest => (digitosNat rest).map (fun n => -(n : Int))
  | '+' :: rest => (digitosNat rest).map (fun n => (n : Int))
  | cs => (digitosNat cs).map (fun n => (n : Int))

/-- Digits with at most one decimal point and at least one digit. -/
def mantisaOk (cs : List Char) : Bool :=
  (cs.any Char.isDigit) &&
    (cs.all (fun c => c.isDigit || c == '.')) &&
    ((cs.filter (fun c => c == '.')).length ≤ 1)

/-- Exponent part of a float literal: optional sign then digits. -/
def exponenteOk (cs : List Char) : Bool :=
  match cs with
  | '-' :: rest => !rest.isEmpty && rest.all Char.isDigit
  | '+' :: rest => !rest.isEmpty && rest.all Char.isDigit
  | _ => !cs.isEmpty && cs.all Char.isDigit

/-- Split a float literal at its first exponent marker e or E. -/
def parteExp : List Char → Option (List Char × List Char)
  | [] => none
  | c :: rest =>
    if c == 'e' || c == 'E' then some ([], rest)
    else
      match parteExp rest with
      | some (m, ex) => some (c :: m, ex)
      | none => none

/-- Float body after the sign: inf/infinity/nan or mantissa[e exponent]. -/
def cuerpoFloatOk (cs : List Char) : Bool :=
  let low := cs.map pyLowerChar
  if low = "inf".toList || low = "infinity".toList || low = "nan".toList then true
  else
    match parteExp cs with
    | none => mantisaOk cs
    | some (m, ex) => mantisaOk m && exponenteOk ex

/-- Python float(entrada) acceptance. -/
def esFloatLit (s : String) : Bool :=
  match (pyStrip s).toList with
  | '-' :: rest => cuerpoFloatOk rest
  | '+' :: rest => cuerpoFloatOk rest
  | cs => cuerpoFloatOk cs

/-- Python float(entrada), the accepted value modelled by its trimmed text. -/
def pyFloat (s : String) : Option String :=
  if esFloatLit s then some (pyStrip s) else none

/-- Gregorian leap year, as datetime uses. -/
def esBisiesto (y : Nat) : Bool :=
  y % 4 == 0 && (y % 100 != 0 || y % 400 == 0)

/-- Days in a month, as datetime validates. -/
def diasEnMes (y m : Nat) : Nat :=
  if m == 2 then (if esBisiesto y then 29 else 28)
  else if m == 4 || m == 6 || m == 9 || m == 11 then 30
  else 31

/-- The strptime month field: two digits forming 01-12, else one digit 1-9
(the regex alternation 1[0-2], 0[1-9], [1-9]). -/
def parseMes : List Char → Option (Nat × List Char)
  | c1 :: c2 :: rest =>
    if c1 == '1' && c2.isDigit && digitVal c2 ≤ 2 then some (10 + digitVal c2, rest)
    else if c1 == '0' && c2.isDigit && 1 ≤ digitVal c2 then some (digitVal c2, rest)
    else if c1.isDigit && 1 ≤ digitVal c1 then some (digitVal c1, c2 :: rest)
    else none
  | [c1] => if c1.isDigit && 1 ≤ digitVal c1 then some (digitVal c1, []) else none
  | [] => none

/-- The strptime day field: the regex alternation 3[01], [12] digit,
0[1-9], [1-9]. -/
def parseDia : List Char → Option (Nat × List Char)
  | c1 :: c2 :: rest =>
    if c1 == '3' && (c2 == '0' || c2 == '1') then some (30 + digitVal c2, rest)
    else if (c1 == '1' || c1 == '2') && c2.isDigit then
      some (10 * digitVal c1 + digitVal c2, rest)
    else if c1 == '0' && c2.isDigit && 1 ≤ digitVal c2 then some (digitVal c2, rest)
    else if c1.isDigit && 1 ≤ digitVal c1 then some (digitVal c1, c2 :: rest)
    else none
  | [c1] => if c1.isDigit && 1 ≤ digitVal c1 then some (digitVal c1, []) else none
  | [] => none

/-- datetime.strptime(entrada, "%Y-%m-%d"): a four-digit year, a dash, the
month field, a dash, the day field, then end of input; the resulting date
must be constructible (year at least 1, day within the month). -/
def strptimeYMD (s : String) : Option (Nat × Nat × Nat) :=
  match s.toList with
  | y1 :: y2 :: y3 :: y4 :: '-' :: rest =>
    if y1.isDigit && y2.isDigit && y3.isDigit && y4.isDigit then
      let y := digitVal y1 * 1000 + digitVal y2 * 100 + digitVal y3 * 10 + digitVal y4
      match parseMes rest with
      | some (m, '-' :: rest2) =>
        match parseDia rest2 with
        | some (d, []) => if 1 ≤ y && d ≤ diasEnMes y m then some (y, m, d) else none
        | _ => none
      | _ => none
    else none
  | _ => none

/-- A typed value produced by the interactive coercion at ETLSQL.py:263-281.
Floats are modelled by their accepted text; dates carry year, month, day
(strptime with %Y-%m-%d leaves the time at midnight); nowDT is the
client-side datetime.now() carrying its string rendering. -/
inductive PyVal where
  | int : Int → PyVal
  | float : String → PyVal
  | date : Nat → Nat → Nat → PyVal
  | str : String → PyVal
  | nowDT : String → PyVal
deriving DecidableEq

/-- Two-digit zero padding. -/
def pad2 (n : Nat) : String := if n < 10 then "0" ++ toString n else toString n

/-- Four-digit zero padding, as str(datetime) renders the year. -/
def pad4 (n : Nat) : String :=
  if n < 10 then "000" ++ toString n
  else if n < 100 then "00" ++ toString n
  else if n < 1000 then "0" ++ toString n
  else toString n

/-- Python str() of a coerced value, as logged at ETLSQL.py:283. -/
def pyStr : PyVal → String
  | PyVal.int n => toString n
  | PyVal.float v => v
  | PyVal.date y m d => pad4 y ++ "-" ++ pad2 m ++ "-" ++ pad2 d ++ " 00:00:00"
  | PyVal.str s => s
  | PyVal.nowDT r => r

/-- ETLSQL.py:262-281 — type dispatch on the lowered SQL type name, then the
per-category parse; the message for the bit category is the literal raised
at ETLSQL.py:275. Other Python error texts are modelled representatively. -/
def coerce (tipo_sql entrada : String) : Except String PyVal :=
  if ["int", "bigint", "smallint", "tinyint"].contains tipo_sql then
    match pyInt entrada with
    | some n => Except.ok (PyVal.int n)
    | none =>
      Except.error ("invalid literal for int() with base 10: " ++ keyErrorMsg entrada)
  else if ["float", "real", "decimal", "numeric", "money", "smallmoney"].contains tipo_sql then
    match pyFloat entrada with
    | some v => Except.ok (PyVal.float v)
    | none => Except.error ("could not convert string to float: " ++ keyErrorMsg entrada)
  else if ["bit"].contains tipo_sql then
    if ["1", "true", "sí", "si"].contains (lowerStr entrada) then Except.ok (PyVal.int 1)
    else if ["0", "false", "no"].contains (lowerStr entrada) then Except.ok (PyVal.int 0)
    else Except.error "Debe ingresar 1/0 o true/false"
  else if ["date", "datetime", "smalldatetime", "datetime2"].contains tipo_sql then
    match strptimeYMD entrada with
    | some (y, m, d) => Except.ok (PyVal.date y m d)
    | none => Except.error ("time data " ++ keyErrorMsg entrada ++ " does not match format")
  else
    Except.ok (PyVal.str entrada)

/-- ETLSQL.py:259-287 — the field retry loop: the operator keeps answering
until one entry coerces; the stream of attempted entries is given, each
stripped as input() is; none models a stream that never succeeds. -/
def pedirCampo (tipo_sql : String) : List String → Option PyVal
  | [] => none
  | entrada :: rest =>
    match coerce (lowerStr tipo_sql) (pyStrip entrada) with
    | Except.ok v => some v
    | Except.error _ => pedirCampo tipo_sql rest

/-- The two renderings of the current instant used by carga_manual:
str(datetime.now()) and now().strftime("%Y-%m-%d %H:%M:%S"). -/
structure Reloj where
  nowRepr : String
  nowFmt : String
deriving DecidableEq

/-- ETLSQL.py:246-256 — the automatic value for the managed column: a
datetime for date/time typed columns, a rendered string plus " Python"
otherwise. -/
def valorEjecucion (reloj : Reloj) (tipo : String) : PyVal :=
  if ["datetime", "smalldatetime", "datetime2", "date"].contains (lowerStr tipo) then
    PyVal.nowDT reloj.nowRepr
  else
    PyVal.str (reloj.nowFmt ++ " Python")

/-- ETLSQL.py:243-287 — build one interactive row over the schema, in
column order: the managed column gets its automatic value, every other
column runs the retry loop over the given entry stream for that column.
Returns the positional value list and the log dictionary. -/
def buildFila (reloj : Reloj) (inputs : List (String × List String)) :
    List (String × String) → Option (List PyVal × List (String × String))
  | [] => some ([], [])
  | (col, tipo) :: resto =>
    if isBiEjecucion col then
      match buildFila reloj inputs resto with
      | some (fila, dict) =>
        some (valorEjecucion reloj tipo :: fila,
          (col, pyStr (valorEjecucion reloj tipo)) :: dict)
      | none => none
    else
      match pedirCampo tipo (((inputs.find? (fun p => p.1 == col)).map
          (fun p => p.2)).getD []) with
      | some v =>
        match buildFila reloj inputs resto with
        | some (fila, dict) => some (v :: fila, (col, pyStr v) :: dict)
        | none => none
      | none => none

/-- ETLSQL.py:300-305 — one failure record of the interactive pipeline. -/
structure ErrManual where
  attempt : Nat
  error : String
  tb : String
  snapshot : List (String × String)
deriving DecidableEq

/-- The counters and accumulators of carga_manual. -/
structure EstadoManual where
  attempt_counter : Nat
  filas_insertadas : Nat
  errores : List ErrManual
  filas_insertadas_data : List (List (String × String))
deriving DecidableEq

/-- One iteration of the interactive loop: the entry streams the operator
supplies per column, and the database verdict for the built row. -/
structure EntradaManual where
  inputs : List (String × List String)
  dbErr : Option String
deriving DecidableEq

/-- ETLSQL.py:240-306 — one iteration: count the attempt, build the row
(none when a field stream never coerces), then insert + commit through the
verdict, recording either the inserted snapshot or a failure record. -/
def pasoManual (esquema : List (String × String)) (reloj : Reloj)
    (st : EstadoManual) (e : EntradaManual) : Option EstadoManual :=
  let intento := st.attempt_counter + 1
  match buildFila reloj e.inputs esquema with
  | none => none
  | some (_, dict) =>
    match e.dbErr with
    | none =>
      some { attempt_counter := intento, filas_insertadas := st.filas_insertadas + 1,
             errores := st.errores,
             filas_insertadas_data := st.filas_insertadas_data ++ [dict] }
    | some msg =>
      some { attempt_counter := intento, filas_insertadas := st.filas_insertadas,
             errores := st.errores ++ [⟨intento, msg, tbOf msg, dict⟩],
             filas_insertadas_data := st.filas_insertadas_data }

/-- The interactive loop from a given state over the remaining entries. -/
def cargaManualDesde (esquema : List (String × String)) (reloj : Reloj) :
    EstadoManual → List EntradaManual → Option EstadoManual
  | st, [] => some st
  | st, e :: rest =>
    match pasoManual esquema reloj st e with
    | none => none
    | some st2 => cargaManualDesde esquema reloj st2 rest

/-- ETLSQL.py:199-311 — the interactive pipeline over its iterations. -/
def cargaManual (esquema : List (String × String)) (reloj : Reloj)
    (entradas : List EntradaManual) : Option EstadoManual :=
  cargaManualDesde esquema reloj ⟨0, 0, [], []⟩ entradas

/-- An audit artifact written at the end of a run: the summary text file, the
inserted-rows CSV, or the errors CSV (field names plus rendered rows). -/
inductive Artefacto where
  | resumen : List String → Artefacto
  | csvInsertadas : List String → List (List (String × String)) → Artefacto
  | csvErrores : List String → List (List (String × String)) → Artefacto
deriving DecidableEq

/-- Lookup in a rendered dictionary. -/
def buscar (r : List (String × String)) (k : String) : Option String :=
  (r.find? (fun p => p.1 == k)).map (fun p => p.2)

/-- ETLSQL.py:332 and ETLSQL.py:485 — one CSV row: every field name of the
header, a missing key rendered as the empty string. -/
def filaCsv (fieldnames : List String) (r : List (String × String)) :
    List (String × String) :=
  fieldnames.map (fun k => (k, (buscar r k).getD ""))

/-- The merged dictionary of a manual failure record: the snapshot keys
override the attempt/error/traceback keys, as the Python dict literal with
a trailing ** merge does. -/
def dictErrManual (err : ErrManual) : List (String × String) :=
  err.snapshot ++
    [("attempt", toString err.attempt), ("error", err.error), ("traceback", err.tb)]

/-- The merged dictionary of a batch failure record. -/
def dictErrArchivo (err : ErrArchivo) : List (String × String) :=
  err.snapshot ++
    [("row", toString err.row), ("error", err.error), ("traceback", err.tb)]

/-- ETLSQL.py:314-321 — the summary lines of the interactive run. -/
def resumenManual (fecha bd tabla : String) (st : EstadoManual) : List String :=
  ["Fecha: " ++ fecha, "Base de datos: " ++ bd, "Tabla: " ++ tabla,
   "Intentos totales: " ++ toString st.attempt_counter,
   "Filas insertadas correctamente: " ++ toString st.filas_insertadas,
   "Filas con error: " ++ toString st.errores.length]

/-- ETLSQL.py:313-344 — the artifacts written at the end of carga_manual:
the summary always; the inserted-rows CSV over all table columns when any
row was inserted; the errors CSV when any attempt failed. -/
def logsManual (fecha bd tabla : String) (columnas : List String)
    (st : EstadoManual) : List Artefacto :=
  [Artefacto.resumen (resumenManual fecha bd tabla st)] ++
  (if st.filas_insertadas_data.isEmpty then []
   else [Artefacto.csvInsertadas columnas
          (st.filas_insertadas_data.map (filaCsv columnas))]) ++
  (if st.errores.isEmpty then []
   else [Artefacto.csvErrores (["attempt", "error", "traceback"] ++ columnas)
          (st.errores.map (fun e =>
            filaCsv (["attempt", "error", "traceback"] ++ columnas) (dictErrManual e)))])

/-- ETLSQL.py:468-476 — the summary lines of the batch run. -/
def resumenArchivo (fecha bd tabla archivo : String) (st : EstadoArchivo) : List String :=
  ["Fecha: " ++ fecha, "Base de datos: " ++ bd, "Tabla: " ++ tabla,
   "Archivo procesado: " ++ archivo,
   "Filas procesadas: " ++ toString st.filas_procesadas,
   "Filas cargadas correctamente: " ++ toString st.filas_cargadas,
   "Filas con error: " ++ toString st.errores.length]

/-- ETLSQL.py:467-487 — the artifacts written at the end of
carga_por_archivo: the summary always; the errors CSV when any row failed;
no inserted-rows artifact exists in this mode. -/
def logsArchivo (fecha bd tabla archivo : String) (colsSin : List String)
    (st : EstadoArchivo) : List Artefacto :=
  [Artefacto.resumen (resumenArchivo fecha bd tabla archivo st)] ++
  (if st.errores.isEmpty then []
   else [Artefacto.csvErrores (["row", "error", "traceback"] ++ colsSin)
          (st.errores.map (fun e =>
            filaCsv (["row", "error", "traceback"] ++ colsSin) (dictErrArchivo e)))])

/-- Artifact discriminators. -/
def esResumen : Artefacto → Bool
  | Artefacto.resumen _ => true
  | _ => false

def esCsvInsertadas : Artefacto → Bool
  | Artefacto.csvInsertadas _ _ => true
  | _ => false

def esCsvErrores : Artefacto → Bool
  | Artefacto.csvErrores _ _ => true
  | _ => false

/-- Observable database events of a run, indexed by row number. -/
inductive Evento where
  | execIns : Nat → Evento
  | commitFila : Nat → Evento
  | falla : Nat → Evento
deriving DecidableEq

/-- ETLSQL.py:439-465 — the events one batch row produces: a blank-refused
row produces only its failure; an attempted row executes its insert and then
either commits or records the driver failure. -/
def eventosFila (cols : List String) (db : Nat → List String → Option String)
    (rowNum : Nat) (fila : Row) : List Evento :=
  match buildValores cols fila rowNum with
  | Except.error _ => [Evento.falla rowNum]
  | Except.ok valores =>
    match db rowNum valores with
    | none => [Evento.execIns rowNum, Evento.commitFila rowNum]
    | some _ => [Evento.execIns rowNum, Evento.falla rowNum]

/-- The batch event trace from a starting row count. -/
def eventosArchivoDesde (cols : List String) (db : Nat → List String → Option String) :
    Nat → List Row → List Evento
  | _, [] => []
  | n, fila :: rest =>
    eventosFila cols db (n + 1) fila ++ eventosArchivoDesde cols db (n + 1) rest

/-- The batch event trace of the whole operation, empty when the
reconciliation gate rejects before any row is attempted. -/
def eventosArchivo (sqlCols fileCols : List String)
    (db : Nat → List String → Option String) (rows : List Row) : List Evento :=
  if (columnasFaltantes sqlCols fileCols).isEmpty &&
      (columnasSobrantes sqlCols fileCols).isEmpty then
    eventosArchivoDesde (columnasSinEjecucion sqlCols) db 0 rows
  else []

/-- ETLSQL.py:289-296 — the events of the interactive iterations: each built
row executes its insert and then commits or records the failure; none when
some field stream never coerces. -/
def eventosManualDesde (esquema : List (String × String)) (reloj : Reloj) :
    Nat → List EntradaManual → Option (List Evento)
  | _, [] => some []
  | n, e :: rest =>
    match buildFila reloj e.inputs esquema with
    | none => none
    | some _ =>
      match eventosManualDesde esquema reloj (n + 1) rest with
      | none => none
      | some evs =>
        some ((match e.dbErr with
               | none => [Evento.execIns (n + 1), Evento.commitFila (n + 1)]
               | some _ => [Evento.execIns (n + 1), Evento.falla (n + 1)]) ++ evs)

/-- Substring helpers used to state what an error message names. -/
def listPrefijo : List Char → List Char → Bool
  | [], _ => true
  | _ :: _, [] => false
  | a :: as, b :: bs => a == b && listPrefijo as bs

def contieneSub (agu : List Char) : List Char → Bool
  | [] => listPrefijo agu []
  | b :: bs => listPrefijo agu (b :: bs) || contieneSub agu bs

/-- Whether sub occurs inside s. -/
def contiene (sub s : String) : Bool := contieneSub sub.toList s.toList

/-- One batch row advances the processed counter by one and adds exactly one
to the loaded counter or to the error list. -/
theorem paso_archivo_contadores (cols : List String)
    (db : Nat → List String → Option String) (st : EstadoArchivo) (fila : Row) :
    (procesarFilaArchivo cols db st fila).filas_procesadas = st.filas_procesadas + 1
    ∧ (procesarFilaArchivo cols db st fila).filas_cargadas
        + (procesarFilaArchivo cols db st fila).errores.length
      = st.filas_cargadas + st.errores.length + 1 := by
  unfold procesarFilaArchivo
  cases h : buildValores cols fila (st.filas_procesadas + 1) with
  | error m => simp [h]; omega
  | ok vs =>
    cases hdb : db (st.filas_procesadas + 1) vs with
    | none => simp [h, hdb]; omega
    | some e => simp [h, hdb]; omega

/-- Counter arithmetic of the batch fold. -/
theorem fold_archivo_contadores (cols : List String)
    (db : Nat → List String → Option String) :
    ∀ (rows : List Row) (st : EstadoArchivo),
      (rows.foldl (procesarFilaArchivo cols db) st).filas_procesadas
        = st.filas_procesadas + rows.length
      ∧ (rows.foldl (procesarFilaArchivo cols db) st).filas_cargadas
          + (rows.foldl (procesarFilaArchivo cols db) st).errores.length
        = st.filas_cargadas + st.errores.length + rows.length := by
  intro rows
  induction rows with
  | nil => intro st; simp
  | cons fila rest ih =>
    intro st
    have hp := paso_archivo_contadores cols db st fila
    have hr := ih (procesarFilaArchivo cols db st fila)
    simp only [List.foldl_cons, List.length_cons]
    constructor
    · omega
    · omega

/-- One interactive iteration advances the attempt counter by one and adds
exactly one to the inserted counter (together with its snapshot) or to the
error list. -/
theorem paso_manual_contadores (esquema : List (String × String)) (reloj : Reloj)
    (st st2 : EstadoManual) (e : EntradaManual)
    (h : pasoManual esquema reloj st e = some st2) :
    st2.attempt_counter = st.attempt_counter + 1
    ∧ st2.filas_insertadas + st2.errores.length
        = st.filas_insertadas + st.errores.length + 1
    ∧ st2.filas_insertadas_data.length + st.filas_insertadas
        = st2.filas_insertadas + st.filas_insertadas_data.length := by
  unfold pasoManual at h
  cases hb : buildFila reloj e.inputs esquema with
  | none => rw [hb] at h; simp at h
  | some pr =>
    rw [hb] at h
    cases hdb : e.dbErr with
    | none =>
      rw [hdb] at h
      cases h
      simp; omega
    | some msg =>
      rw [hdb] at h
      cases h
      simp; omega

/-- Counter arithmetic of the interactive loop. -/
theorem fold_manual_contadores (esquema : List (String × String)) (reloj : Reloj) :
    ∀ (entradas : List EntradaManual) (st st2 : EstadoManual),
      cargaManualDesde esquema reloj st entradas = some st2 →
      st2.attempt_counter = st.attempt_counter + entradas.length
      ∧ st2.filas_insertadas + st2.errores.length
          = st.filas_insertadas + st.errores.length + entradas.length
      ∧ st2.filas_insertadas_data.length + st.filas_insertadas
          = st2.filas_insertadas + st.filas_insertadas_data.length := by
  intro entradas
  induction entradas with
  | nil =>
    intro st st2 h
    unfold cargaManualDesde at h
    cases h
    exact ⟨by simp, by simp, by omega⟩
  | cons e rest ih =>
    intro st st2 h
    unfold cargaManualDesde at h
    cases hp : pasoManual esquema reloj st e with
    | none => rw [hp] at h; simp at h
    | some st1 =>
      rw [hp] at h
      have h1 := paso_manual_contadores esquema reloj st st1 e hp
      have h2 := ih st1 st2 h
      simp only [List.length_cons]
      refine ⟨by omega, by omega, by omega⟩

/-- C1: for every completed batch run, the processed counter (attempted)
equals loaded (succeeded) plus the failure records (failed) and equals the
number of source rows, so no row is silently dropped; for every completed
interactive session the attempt counter likewise equals inserted plus
errored and equals the number of iterations. -/
theorem c1_contadores_totales
    (sqlCols fileCols : List String) (rows : List Row)
    (db : Nat → List String → Option String) (stA : EstadoArchivo)
    (hA : cargaPorArchivo sqlCols fileCols rows db = Except.ok stA)
    (esquema : List (String × String)) (reloj : Reloj)
    (entradas : List EntradaManual) (stM : EstadoManual)
    (hM : cargaManual esquema reloj entradas = some stM) :
    (stA.filas_procesadas = stA.filas_cargadas + stA.errores.length
      ∧ stA.filas_cargadas + stA.errores.length = rows.length)
    ∧ (stM.attempt_counter = stM.filas_insertadas + stM.errores.length
      ∧ stM.filas_insertadas + stM.errores.length = entradas.length) := by
  constructor
  · unfold cargaPorArchivo at hA
    split at hA
    · have h := fold_archivo_contadores (columnasSinEjecucion sqlCols) db rows ⟨0, 0, []⟩
      injection hA with hA2
      rw [hA2] at h
      simp at h
      exact ⟨by omega, by omega⟩
    · simp at hA
  · unfold cargaManual at hM
    have h := fold_manual_contadores esquema reloj entradas ⟨0, 0, [], []⟩ stM hM
    simp at h
    exact ⟨by omega, by omega⟩

/-- Closed instance of C1: a two-row batch (one good row, one blank row)
and a one-row interactive session. -/
theorem c1_contadores_totales_witness :
    ((2 : Nat) = 1 + 1 ∧ (1 : Nat) + 1 = 2)
    ∧ ((1 : Nat) = 1 + 0 ∧ (1 : Nat) + 0 = 1) := by
  exact c1_contadores_totales ["id", "Bi_ejecucion"] ["id"]
    [[("id", Cell.val "7")], [("id", Cell.na)]] (fun _ _ => none)
    ⟨2, 1, [⟨2, campoBlancoMsg "id" 2, tbOf (campoBlancoMsg "id" 2), [("id", "")]⟩]⟩
    (by decide)
    [("id", "int")] ⟨"R", "F"⟩ [⟨[("id", ["7"])], none⟩]
    ⟨1, 1, [], [[("id", "7")]]⟩ (by decide)

/-- The reconciliation gate passes exactly when the file columns and the
non-managed target columns agree as sets. -/
theorem gate_iff_conjunto (sqlCols fileCols : List String) :
    ((columnasFaltantes sqlCols fileCols).isEmpty &&
        (columnasSobrantes sqlCols fileCols).isEmpty) = true
    ↔ (∀ c, c ∈ fileCols ↔ c ∈ columnasSinEjecucion sqlCols) := by
  rw [Bool.and_eq_true, List.isEmpty_iff, List.isEmpty_iff]
  unfold columnasFaltantes columnasSobrantes
  rw [List.filter_eq_nil_iff, List.filter_eq_nil_iff]
  constructor
  · intro h c
    constructor
    · intro hc
      have h2 := h.2 c hc
      simpa using h2
    · intro hc
      have h1 := h.1 c hc
      simpa using h1
  · intro h
    constructor
    · intro c hc
      simpa using (h c).mpr hc
    · intro c hc
      simpa using (h c).mp hc

/-- C2: the batch operation accepts the source if and only if the set of
file column names equals the set of target column names minus the managed
column (case-sensitive, order-free); on a mismatch it returns the missing
and extra columns as the two separate filtered lists, and no row is
attempted (the event trace is empty). -/
theorem c2_reconciliacion_exacta
    (sqlCols fileCols : List String) (rows : List Row)
    (db : Nat → List String → Option String) :
    ((∃ st, cargaPorArchivo sqlCols fileCols rows db = Except.ok st)
      ↔ (∀ c, c ∈ fileCols ↔ c ∈ columnasSinEjecucion sqlCols))
    ∧ (∀ falt sobr,
        cargaPorArchivo sqlCols fileCols rows db = Except.error (falt, sobr) →
        falt = columnasFaltantes sqlCols fileCols
        ∧ sobr = columnasSobrantes sqlCols fileCols
        ∧ eventosArchivo sqlCols fileCols db rows = []) := by
  constructor
  · constructor
    · rintro ⟨st, hst⟩
      unfold cargaPorArchivo at hst
      split at hst
      · exact (gate_iff_conjunto sqlCols fileCols).mp (by assumption)
      · simp at hst
    · intro h
      unfold cargaPorArchivo
      rw [if_pos ((gate_iff_conjunto sqlCols fileCols).mpr h)]
      exact ⟨_, rfl⟩
  · intro falt sobr h
    unfold cargaPorArchivo at h
    split at h
    · simp at h
    · rename_i hg
      injection h with h2
      have hp := Prod.mk.injEq _ _ _ _ ▸ h2
      refine ⟨?_, ?_, ?_⟩
      · exact congrArg Prod.fst h2.symm
      · exact congrArg Prod.snd h2.symm
      · unfold eventosArchivo
        rw [if_neg hg]

/-- Closed instance of C2: a source with an extra column is rejected with
the two mismatch lists and an empty event trace. -/
theorem c2_reconciliacion_exacta_witness :
    ([] : List String) = columnasFaltantes ["id", "name", "Bi_ejecucion"] ["id", "name", "extra"]
    ∧ ["extra"] = columnasSobrantes ["id", "name", "Bi_ejecucion"] ["id", "name", "extra"]
    ∧ eventosArchivo ["id", "name", "Bi_ejecucion"] ["id", "name", "extra"]
        (fun _ _ => none)
        [[("id", Cell.val "1"), ("name", Cell.val "a"), ("extra", Cell.val "x")]] = [] := by
  exact (c2_reconciliacion_exacta ["id", "name", "Bi_ejecucion"] ["id", "name", "extra"]
    [[("id", Cell.val "1"), ("name", Cell.val "a"), ("extra", Cell.val "x")]]
    (fun _ _ => none)).2 [] ["extra"] (by decide)

/-- C3 as stated is false on the code: batch mode performs no type-based
coercion. The value abc does not parse under the Integer category (the
coercion engine rejects it), yet the batch pipeline passes it unchanged to
the insert and, with the database accepting, the row succeeds with no
failure record naming the field. -/
theorem c3_sin_coercion_contraejemplo :
    coerce "int" "abc"
      = Except.error ("invalid literal for int() with base 10: " ++ keyErrorMsg "abc")
    ∧ cargaPorArchivo ["id", "Bi_ejecucion"] ["id"] [[("id", Cell.val "abc")]]
        (fun _ _ => none) = Except.ok ⟨1, 1, []⟩ := by
  exact ⟨by decide, by decide⟩

/-- C3 amended: in batch mode the only client-side per-row check is the
blank/missing test. A row whose first blank non-managed field is c is
refused with a diagnostic naming c and the 1-based row position, is recorded
failed without touching the loaded counter, and iteration proceeds with the
remaining rows; rows with no blank field have their values passed to the
database unchanged, with no type-based coercion. -/
theorem c3_filas_en_blanco :
    (∀ (pre : List String) (c : String) (post : List String) (fila : Row) (rowNum : Nat),
      (∀ p ∈ pre, ∃ v, getCell fila p = some (Cell.val v)) →
      getCell fila c = some Cell.na →
      buildValores (pre ++ c :: post) fila rowNum = Except.error (campoBlancoMsg c rowNum))
    ∧ (∀ (cols : List String) (db : Nat → List String → Option String)
        (st : EstadoArchivo) (fila : Row) (rest : List Row) (m : String),
        buildValores cols fila (st.filas_procesadas + 1) = Except.error m →
        (fila :: rest).foldl (procesarFilaArchivo cols db) st
          = rest.foldl (procesarFilaArchivo cols db)
              ⟨st.filas_procesadas + 1, st.filas_cargadas,
                st.errores ++ [⟨st.filas_procesadas + 1, m, tbOf m, rowData cols fila⟩]⟩)
    ∧ (∀ (cols : List String) (fila : Row) (rowNum : Nat),
        (∀ c ∈ cols, ∃ v, getCell fila c = some (Cell.val v)) →
        buildValores cols fila rowNum
          = Except.ok (cols.map (fun c => cellStr (getCell fila c)))) := by
  refine ⟨?_, ?_, ?_⟩
  · intro pre
    induction pre with
    | nil =>
      intro c post fila rowNum hpre hna
      simp [buildValores, hna]
    | cons p ps ih =>
      intro c post fila rowNum hpre hna
      obtain ⟨v, hv⟩ := hpre p (by simp)
      have hr := ih c post fila rowNum (fun q hq => hpre q (by simp [hq])) hna
      simp only [List.cons_append, buildValores, hv]
      rw [List.append_eq, hr]
  · intro cols db st fila rest m h
    simp only [List.foldl_cons]
    have hp : procesarFilaArchivo cols db st fila
        = ⟨st.filas_procesadas + 1, st.filas_cargadas,
            st.errores ++ [⟨st.filas_procesadas + 1, m, tbOf m, rowData cols fila⟩]⟩ := by
      unfold procesarFilaArchivo
      simp only [h]
    rw [hp]
  · intro cols
    induction cols with
    | nil => intro fila rowNum h; simp [buildValores]
    | cons c cs ih =>
      intro fila rowNum h
      obtain ⟨v, hv⟩ := h c (by simp)
      have hr := ih fila rowNum (fun q hq => h q (by simp [hq]))
      simp [buildValores, hv, hr, cellStr]

/-- Closed instance of the amended C3: a blank second field is refused with
the message naming the field and the row, and an all-present row passes its
values through unchanged. -/
theorem c3_filas_en_blanco_witness :
    buildValores ["id", "name"] [("id", Cell.val "7"), ("name", Cell.na)] 2
      = Except.error (campoBlancoMsg "name" 2)
    ∧ buildValores ["id"] [("id", Cell.val "7")] 1 = Except.ok ["7"] := by
  constructor
  · exact c3_filas_en_blanco.1 ["id"] "name" [] [("id", Cell.val "7"), ("name", Cell.na)] 2
      (by intro p hp; simp at hp; subst hp; exact ⟨"7", by decide⟩) (by decide)
  · exact c3_filas_en_blanco.2.2 ["id"] [("id", Cell.val "7")] 1
      (by intro c hc; simp at hc; subst hc; exact ⟨"7", by decide⟩)

/-- C4: the managed column is populated asymmetrically. Interactively, every
managed position of the built value list holds the client-computed execution
value; in batch mode the non-managed column list contains no managed column,
the bound value list has exactly one value per non-managed column, and the
insert statement itself appends Bi_ejecucion with the server-side GETDATE()
expression. -/
theorem c4_columna_gestionada :
    (∀ (reloj : Reloj) (inputs : List (String × List String))
        (esquema : List (String × String)) (fila : List PyVal)
        (dict : List (String × String)),
      buildFila reloj inputs esquema = some (fila, dict) →
      ∀ p ∈ esquema.zip fila, isBiEjecucion p.1.1 = true →
        p.2 = valorEjecucion reloj p.1.2)
    ∧ (∀ sqlCols : List String, ∀ c ∈ columnasSinEjecucion sqlCols,
        isBiEjecucion c = false)
    ∧ (∀ (cols : List String) (fila : Row) (rowNum : Nat) (vs : List String),
        buildValores cols fila rowNum = Except.ok vs → vs.length = cols.length)
    ∧ (∀ tabla colsSin, sentenciaArchivo tabla colsSin =
        "INSERT INTO [" ++ tabla ++ "] (" ++ commaJoin colsSin ++
          ", Bi_ejecucion) VALUES (" ++ commaJoin (colsSin.map (fun _ => "?"))
          ++ ", GETDATE())") := by
  refine ⟨?_, ?_, ?_, ?_⟩
  · intro reloj inputs esquema
    induction esquema with
    | nil =>
      intro fila dict h
      unfold buildFila at h
      cases h
      intro p hp
      simp at hp
    | cons ct resto ih =>
      obtain ⟨col, tipo⟩ := ct
      intro fila dict h
      unfold buildFila at h
      by_cases hb : isBiEjecucion col
      · rw [if_pos hb] at h
        cases hr : buildFila reloj inputs resto with
        | none => rw [hr] at h; simp at h
        | some pr =>
          obtain ⟨f0, d0⟩ := pr
          rw [hr] at h
          cases h
          intro p hp hman
          rcases List.mem_cons.mp hp with hhead | htail
          · subst hhead; rfl
          · exact ih f0 d0 hr p htail hman
      · rw [if_neg hb] at h
        cases hc : pedirCampo tipo (((inputs.find? (fun p => p.1 == col)).map
            (fun p => p.2)).getD []) with
        | none => rw [hc] at h; simp at h
        | some v =>
          rw [hc] at h
          cases hr : buildFila reloj inputs resto with
          | none => rw [hr] at h; simp at h
          | some pr =>
            obtain ⟨f0, d0⟩ := pr
            rw [hr] at h
            cases h
            intro p hp hman
            rcases List.mem_cons.mp hp with hhead | htail
            · subst hhead; simp at hman; exact absurd hman hb
            · exact ih f0 d0 hr p htail hman
  · intro sqlCols c hc
    have h := (List.mem_filter.mp hc).2
    simpa using h
  · intro cols
    induction cols with
    | nil =>
      intro fila rowNum vs h
      unfold buildValores at h
      cases h
      rfl
    | cons c cs ih =>
      intro fila rowNum vs h
      unfold buildValores at h
      cases hg : getCell fila c with
      | none => rw [hg] at h; simp at h
      | some cell =>
        cases cell with
        | na => rw [hg] at h; simp at h
        | val v =>
          rw [hg] at h
          cases hr : buildValores cs fila rowNum with
          | error m => rw [hr] at h; simp at h
          | ok vs0 =>
            rw [hr] at h
            cases h
            simp [ih fila rowNum vs0 hr]
  · intro tabla colsSin
    rfl

/-- Closed instance of C4: a managed head column receives the client
execution value interactively, and a two-column batch row binds two
values. -/
theorem c4_columna_gestionada_witness :
    PyVal.nowDT "R" = valorEjecucion ⟨"R", "F"⟩ "datetime"
    ∧ (["1", "a"] : List String).length = (["id", "name"] : List String).length := by
  constructor
  · exact c4_columna_gestionada.1 ⟨"R", "F"⟩ [("id", ["7"])]
      [("Bi_ejecucion", "datetime"), ("id", "int")] [PyVal.nowDT "R", PyVal.int 7]
      [("Bi_ejecucion", "R"), ("id", "7")] (by decide)
      (("Bi_ejecucion", "datetime"), PyVal.nowDT "R") (by decide) (by decide)
  · exact c4_columna_gestionada.2.2.1 ["id", "name"]
      [("id", Cell.val "1"), ("name", Cell.val "a")] 1 ["1", "a"] (by decide)

/-- C5: in both modes every successful insert commits immediately, before
the next row begins, and a prefix of the run produces a trace unaffected by
any later rows, so a later failure can neither roll back nor block an
earlier committed row and no row's outcome depends on later rows. Batch:
a successful row produces exactly the pair execute-then-commit, and the
trace over two concatenated row lists is the trace of the first followed by
the trace of the second. Interactive: the analogous two facts. -/
theorem c5_commit_por_fila :
    (∀ (cols : List String) (db : Nat → List String → Option String)
        (n : Nat) (fila : Row) (valores : List String),
      buildValores cols fila n = Except.ok valores → db n valores = none →
      eventosFila cols db n fila = [Evento.execIns n, Evento.commitFila n])
    ∧ (∀ (cols : List String) (db : Nat → List String → Option String)
        (rows1 rows2 : List Row) (n : Nat),
      eventosArchivoDesde cols db n (rows1 ++ rows2)
        = eventosArchivoDesde cols db n rows1
          ++ eventosArchivoDesde cols db (n + rows1.length) rows2)
    ∧ (∀ (esquema : List (String × String)) (reloj : Reloj) (n : Nat)
        (e : EntradaManual) (rest : List EntradaManual)
        (pr : List PyVal × List (String × String)) (evs : List Evento),
      buildFila reloj e.inputs esquema = some pr → e.dbErr = none →
      eventosManualDesde esquema reloj (n + 1) rest = some evs →
      eventosManualDesde esquema reloj n (e :: rest)
        = some ([Evento.execIns (n + 1), Evento.commitFila (n + 1)] ++ evs))
    ∧ (∀ (esquema : List (String × String)) (reloj : Reloj)
        (e1 e2 : List EntradaManual) (n : Nat) (evs1 : List Evento),
      eventosManualDesde esquema reloj n e1 = some evs1 →
      eventosManualDesde esquema reloj n (e1 ++ e2)
        = (eventosManualDesde esquema reloj (n + e1.length) e2).map
            (fun evs2 => evs1 ++ evs2)) := by
  refine ⟨?_, ?_, ?_, ?_⟩
  · intro cols db n fila valores h1 h2
    unfold eventosFila
    simp only [h1, h2]
  · intro cols db rows1 rows2
    induction rows1 with
    | nil => intro n; simp [eventosArchivoDesde]
    | cons f rest ih =>
      intro n
      simp only [List.cons_append, eventosArchivoDesde, List.append_eq, List.length_cons]
      rw [ih (n + 1), List.append_assoc]
      have hn : n + 1 + rest.length = n + (rest.length + 1) := by omega
      rw [hn]
  · intro esquema reloj n e rest pr evs h1 h2 h3
    unfold eventosManualDesde
    simp only [h1, h2, h3]
  · intro esquema reloj e1 e2
    induction e1 with
    | nil =>
      intro n evs1 h
      unfold eventosManualDesde at h
      cases h
      simp only [List.nil_append, List.length_nil, Nat.add_zero]
      cases hh : eventosManualDesde esquema reloj n e2 with
      | none => simp
      | some y => simp
    | cons e rest ih =>
      intro n evs1 h
      simp only [eventosManualDesde] at h
      cases hb : buildFila reloj e.inputs esquema with
      | none => rw [hb] at h; simp at h
      | some pr =>
        rw [hb] at h
        cases hr : eventosManualDesde esquema reloj (n + 1) rest with
        | none => rw [hr] at h; simp at h
        | some evs =>
          rw [hr] at h
          injection h with h4
          have hih := ih (n + 1) evs hr
          simp only [List.cons_append, eventosManualDesde, hb, List.append_eq, hih,
            List.length_cons]
          have hn : n + 1 + rest.length = n + (rest.length + 1) := by omega
          rw [hn]
          cases hh : eventosManualDesde esquema reloj (n + (rest.length + 1)) e2 with
          | none => simp [hh]
          | some y => simp [hh, ← h4, List.append_assoc]

/-- Closed instance of C5: a one-row successful batch trace is exactly
execute then commit, and splitting a two-entry interactive session keeps
the first trace as prefix. -/
theorem c5_commit_por_fila_witness :
    eventosFila ["id"] (fun _ _ => none) 1 [("id", Cell.val "7")]
      = [Evento.execIns 1, Evento.commitFila 1] := by
  exact c5_commit_por_fila.1 ["id"] (fun _ _ => none) 1 [("id", Cell.val "7")] ["7"]
    (by decide) (by rfl)

/-- C6 as stated is false on the code: sí (and si) are accepted literals
for true, yet the message raised for a rejected input such as yes names
only the literals 1/0 and true/false — the accepted literals sí/si do not
occur in it. -/
theorem c6_mensaje_contraejemplo :
    coerce "bit" "sí" = Except.ok (PyVal.int 1)
    ∧ coerce "bit" "yes" = Except.error "Debe ingresar 1/0 o true/false"
    ∧ contiene "1" "Debe ingresar 1/0 o true/false" = true
    ∧ contiene "true" "Debe ingresar 1/0 o true/false" = true
    ∧ contiene "sí" "Debe ingresar 1/0 o true/false" = false
    ∧ contiene "si" "Debe ingresar 1/0 o true/false" = false := by
  exact ⟨by decide, by decide, by decide, by decide, by decide, by decide⟩

/-- C6 amended: boolean coercion maps exactly the case-insensitive literals
1, true, sí, si to true and exactly 0, false, no to false; every other
input fails with the fixed message, which names the literals 1/0 and
true/false but omits the accepted literals sí and si. -/
theorem c6_coercion_bit (e : String) :
    (coerce "bit" e = Except.ok (PyVal.int 1)
      ↔ ["1", "true", "sí", "si"].contains (lowerStr e) = true)
    ∧ (coerce "bit" e = Except.ok (PyVal.int 0)
      ↔ (["1", "true", "sí", "si"].contains (lowerStr e) = false
          ∧ ["0", "false", "no"].contains (lowerStr e) = true))
    ∧ (∀ msg, coerce "bit" e = Except.error msg →
        msg = "Debe ingresar 1/0 o true/false"
        ∧ contiene "1" msg = true ∧ contiene "0" msg = true
        ∧ contiene "true" msg = true ∧ contiene "false" msg = true
        ∧ contiene "sí" msg = false ∧ contiene "si" msg = false)
    ∧ (coerce "bit" e = Except.error "Debe ingresar 1/0 o true/false"
      ↔ (["1", "true", "sí", "si"].contains (lowerStr e) = false
          ∧ ["0", "false", "no"].contains (lowerStr e) = false)) := by
  have hred : coerce "bit" e =
      (if ["1", "true", "sí", "si"].contains (lowerStr e) then Except.ok (PyVal.int 1)
       else if ["0", "false", "no"].contains (lowerStr e) then Except.ok (PyVal.int 0)
       else Except.error "Debe ingresar 1/0 o true/false") := rfl
  by_cases h1 : (["1", "true", "sí", "si"].contains (lowerStr e)) = true
  · rw [hred, if_pos h1]
    refine ⟨⟨fun _ => h1, fun _ => rfl⟩, ?_, ?_, ?_⟩
    · constructor
      · intro hk; simp at hk
      · rintro ⟨ha, _⟩; rw [h1] at ha; simp at ha
    · intro msg hmsg; simp at hmsg
    · constructor
      · intro hk; simp at hk
      · rintro ⟨ha, _⟩; rw [h1] at ha; simp at ha
  · rw [Bool.not_eq_true] at h1
    by_cases h2 : (["0", "false", "no"].contains (lowerStr e)) = true
    · rw [hred, if_neg (by rw [h1]; simp), if_pos h2]
      refine ⟨?_, ⟨fun _ => ⟨h1, h2⟩, fun _ => rfl⟩, ?_, ?_⟩
      · constructor
        · intro hk; simp at hk
        · intro hk; rw [h1] at hk; simp at hk
      · intro msg hmsg; simp at hmsg
      · constructor
        · intro hk; simp at hk
        · rintro ⟨_, hb⟩; rw [h2] at hb; simp at hb
    · rw [Bool.not_eq_true] at h2
      rw [hred, if_neg (by rw [h1]; simp), if_neg (by rw [h2]; simp)]
      refine ⟨?_, ?_, ?_, ⟨fun _ => ⟨h1, h2⟩, fun _ => rfl⟩⟩
      · constructor
        · intro hk; simp at hk
        · intro hk; rw [h1] at hk; simp at hk
      · constructor
        · intro hk; simp at hk
        · rintro ⟨_, hb⟩; rw [h2] at hb; simp at hb
      · intro msg hmsg
        injection hmsg with hm
        subst hm
        exact ⟨rfl, by decide, by decide, by decide, by decide, by decide, by decide⟩

/-- Closed instance of the amended C6: the message produced for yes equals
the fixed text, names 1, 0, true and false, and omits sí and si. -/
theorem c6_coercion_bit_witness :
    "Debe ingresar 1/0 o true/false" = "Debe ingresar 1/0 o true/false"
    ∧ contiene "1" "Debe ingresar 1/0 o true/false" = true
    ∧ contiene "0" "Debe ingresar 1/0 o true/false" = true
    ∧ contiene "true" "Debe ingresar 1/0 o true/false" = true
    ∧ contiene "false" "Debe ingresar 1/0 o true/false" = true
    ∧ contiene "sí" "Debe ingresar 1/0 o true/false" = false
    ∧ contiene "si" "Debe ingresar 1/0 o true/false" = false := by
  exact (c6_coercion_bit "yes").2.2.1 "Debe ingresar 1/0 o true/false" (by decide)

/-- C7: the date and datetime categories (and smalldatetime, datetime2)
share the one strict %Y-%m-%d parse with no time component: 2024-03-05
succeeds while 2024/03/05, 03-05-2024 and an input carrying a time part all
fail, and every successful parse comes from the %Y-%m-%d pattern. -/
theorem c7_coercion_fecha :
    (∀ e, coerce "date" e = coerce "datetime" e)
    ∧ (∀ e, coerce "smalldatetime" e = coerce "date" e)
    ∧ (∀ e, coerce "datetime2" e = coerce "date" e)
    ∧ coerce "date" "2024-03-05" = Except.ok (PyVal.date 2024 3 5)
    ∧ coerce "date" "2024/03/05"
        = Except.error ("time data " ++ keyErrorMsg "2024/03/05" ++ " does not match format")
    ∧ coerce "date" "03-05-2024"
        = Except.error ("time data " ++ keyErrorMsg "03-05-2024" ++ " does not match format")
    ∧ coerce "datetime" "2024-03-05 10:30:00"
        = Except.error ("time data " ++ keyErrorMsg "2024-03-05 10:30:00"
            ++ " does not match format")
    ∧ (∀ e y m d, coerce "datetime" e = Except.ok (PyVal.date y m d) →
        strptimeYMD e = some (y, m, d)) := by
  refine ⟨fun e => rfl, fun e => rfl, fun e => rfl, by decide, by decide, by decide,
    by decide, ?_⟩
  intro e y m d h
  have hred : coerce "datetime" e =
      (match strptimeYMD e with
       | some (y2, m2, d2) => Except.ok (PyVal.date y2 m2 d2)
       | none => Except.error ("time data " ++ keyErrorMsg e ++ " does not match format")) :=
    rfl
  rw [hred] at h
  cases hs : strptimeYMD e with
  | none => rw [hs] at h; simp at h
  | some t =>
    obtain ⟨y2, m2, d2⟩ := t
    rw [hs] at h
    simp at h
    obtain ⟨hy, hm, hd⟩ := h
    rw [hy, hm, hd]

/-- Closed instance of C7: the successful parse of 2024-03-05 comes from
the %Y-%m-%d pattern. -/
theorem c7_coercion_fecha_witness :
    strptimeYMD "2024-03-05" = some (2024, 3, 5) := by
  exact c7_coercion_fecha.2.2.2.2.2.2.2 "2024-03-05" 2024 3 5 (by decide)

/-- A column surviving the managed-column filter is not the managed one. -/
theorem filtro_no_gestionada (cols : List String) (c : String)
    (hc : c ∈ columnasSinEjecucion cols) : isBiEjecucion c = false := by
  have h := (List.mem_filter.mp hc).2
  simpa using h

/-- The error snapshot of a batch row carries exactly the non-managed
column names, in order. -/
theorem rowData_claves (cols : List String) (fila : Row) :
    (rowData cols fila).map Prod.fst = cols := by
  unfold rowData
  have h : (Prod.fst ∘ fun c => (c, cellStr (getCell fila c))) = id := rfl
  rw [List.map_map, h, List.map_id]

/-- A rendered CSV row carries exactly the header field names, in order. -/
theorem filaCsv_claves (fieldnames : List String) (r : List (String × String)) :
    (filaCsv fieldnames r).map Prod.fst = fieldnames := by
  unfold filaCsv
  have h : (Prod.fst ∘ fun k => (k, (buscar r k).getD "")) = id := rfl
  rw [List.map_map, h, List.map_id]

/-- Every failure record accumulated by the batch fold keeps snapshot keys
equal to the processed column list. -/
theorem fold_archivo_claves (cols : List String)
    (db : Nat → List String → Option String) :
    ∀ (rows : List Row) (st : EstadoArchivo),
      (∀ err ∈ st.errores, err.snapshot.map Prod.fst = cols) →
      ∀ err ∈ (rows.foldl (procesarFilaArchivo cols db) st).errores,
        err.snapshot.map Prod.fst = cols := by
  intro rows
  induction rows with
  | nil => intro st h; simpa using h
  | cons fila rest ih =>
    intro st h
    simp only [List.foldl_cons]
    apply ih
    intro err herr
    unfold procesarFilaArchivo at herr
    cases hb : buildValores cols fila (st.filas_procesadas + 1) with
    | error m =>
      simp only [hb] at herr
      simp at herr
      rcases herr with h1 | h2
      · exact h err h1
      · rw [h2]; exact rowData_claves cols fila
    | ok vs =>
      simp only [hb] at herr
      cases hdb : db (st.filas_procesadas + 1) vs with
      | none =>
        simp only [hdb] at herr
        exact h err herr
      | some e =>
        simp only [hdb] at herr
        simp at herr
        rcases herr with h1 | h2
        · exact h err h1
        · rw [h2]; exact rowData_claves cols fila

/-- The log dictionary built for an interactive row carries exactly the
schema column names, in order, the managed column included. -/
theorem buildFila_claves (reloj : Reloj) (inputs : List (String × List String)) :
    ∀ (esquema : List (String × String)) (fila : List PyVal)
      (dict : List (String × String)),
      buildFila reloj inputs esquema = some (fila, dict) →
      dict.map Prod.fst = esquema.map Prod.fst := by
  intro esquema
  induction esquema with
  | nil => intro fila dict h; unfold buildFila at h; cases h; rfl
  | cons ct resto ih =>
    obtain ⟨col, tipo⟩ := ct
    intro fila dict h
    unfold buildFila at h
    by_cases hb : isBiEjecucion col
    · rw [if_pos hb] at h
      cases hr : buildFila reloj inputs resto with
      | none => rw [hr] at h; simp at h
      | some pr =>
        obtain ⟨f0, d0⟩ := pr
        rw [hr] at h
        cases h
        simp [ih f0 d0 hr]
    · rw [if_neg hb] at h
      cases hc : pedirCampo tipo (((inputs.find? (fun p => p.1 == col)).map
          (fun p => p.2)).getD []) with
      | none => rw [hc] at h; simp at h
      | some v =>
        rw [hc] at h
        cases hr : buildFila reloj inputs resto with
        | none => rw [hr] at h; simp at h
        | some pr =>
          obtain ⟨f0, d0⟩ := pr
          rw [hr] at h
          cases h
          simp [ih f0 d0 hr]

/-- Every inserted snapshot and every failure snapshot accumulated by the
interactive loop keeps keys equal to the schema column names. -/
theorem fold_manual_claves (esquema : List (String × String)) (reloj : Reloj) :
    ∀ (entradas : List EntradaManual) (st st2 : EstadoManual),
      cargaManualDesde esquema reloj st entradas = some st2 →
      (∀ d ∈ st.filas_insertadas_data, d.map Prod.fst = esquema.map Prod.fst) →
      (∀ er ∈ st.errores, er.snapshot.map Prod.fst = esquema.map Prod.fst) →
      (∀ d ∈ st2.filas_insertadas_data, d.map Prod.fst = esquema.map Prod.fst)
      ∧ (∀ er ∈ st2.errores, er.snapshot.map Prod.fst = esquema.map Prod.fst) := by
  intro entradas
  induction entradas with
  | nil =>
    intro st st2 h hd he
    unfold cargaManualDesde at h
    cases h
    exact ⟨hd, he⟩
  | cons e rest ih =>
    intro st st2 h hd he
    unfold cargaManualDesde at h
    cases hp : pasoManual esquema reloj st e with
    | none => rw [hp] at h; simp at h
    | some st1 =>
      rw [hp] at h
      unfold pasoManual at hp
      cases hb : buildFila reloj e.inputs esquema with
      | none => rw [hb] at hp; simp at hp
      | some pr =>
        obtain ⟨f0, d0⟩ := pr
        rw [hb] at hp
        cases hdb : e.dbErr with
        | none =>
          rw [hdb] at hp
          cases hp
          apply ih _ st2 h
          · intro d hdm
            simp at hdm
            rcases hdm with h1 | h2
            · exact hd d h1
            · rw [h2]; exact buildFila_claves reloj e.inputs esquema f0 d0 hb
          · exact he
        | some msg =>
          rw [hdb] at hp
          cases hp
          apply ih _ st2 h
          · exact hd
          · intro er herm
            simp at herm
            rcases herm with h1 | h2
            · exact he er h1
            · rw [h2]; exact buildFila_claves reloj e.inputs esquema f0 d0 hb

/-- Which artifacts carga_manual emits, as a function of the final state:
the summary heads the list always; the inserted CSV appears exactly when
some snapshot was accumulated; the errors CSV exactly when some failure
record was. -/
theorem logsManual_emision (fecha bd tabla : String) (columnas : List String)
    (st : EstadoManual) :
    (logsManual fecha bd tabla columnas st).head?
      = some (Artefacto.resumen (resumenManual fecha bd tabla st))
    ∧ (logsManual fecha bd tabla columnas st).any esCsvInsertadas
      = !st.filas_insertadas_data.isEmpty
    ∧ (logsManual fecha bd tabla columnas st).any esCsvErrores
      = !st.errores.isEmpty := by
  by_cases hd : st.filas_insertadas_data.isEmpty
  · by_cases he : st.errores.isEmpty
    · simp [logsManual, hd, he, esCsvInsertadas, esCsvErrores, esResumen]
    · simp [logsManual, hd, he, esCsvInsertadas, esCsvErrores, esResumen]
  · by_cases he : st.errores.isEmpty
    · simp [logsManual, hd, he, esCsvInsertadas, esCsvErrores, esResumen]
    · simp [logsManual, hd, he, esCsvInsertadas, esCsvErrores, esResumen]

/-- Which artifacts carga_por_archivo emits: the summary always, the errors
CSV exactly when some failure record exists, and never an inserted CSV. -/
theorem logsArchivo_emision (fecha bd tabla archivo : String)
    (colsSin : List String) (st : EstadoArchivo) :
    (logsArchivo fecha bd tabla archivo colsSin st).head?
      = some (Artefacto.resumen (resumenArchivo fecha bd tabla archivo st))
    ∧ (logsArchivo fecha bd tabla archivo colsSin st).any esCsvErrores
      = !st.errores.isEmpty
    ∧ (logsArchivo fecha bd tabla archivo colsSin st).any esCsvInsertadas
      = false := by
  by_cases he : st.errores.isEmpty
  · simp [logsArchivo, he, esCsvInsertadas, esCsvErrores, esResumen]
  · simp [logsArchivo, he, esCsvInsertadas, esCsvErrores, esResumen]

/-- C8 as stated is false on the code: a batch run with one successful row
(one row loaded, zero failures) emits no inserted-rows artifact at all —
carga_por_archivo writes only the summary and, on failures, the errors CSV. -/
theorem c8_lote_contraejemplo :
    cargaPorArchivo ["id", "Bi_ejecucion"] ["id"] [[("id", Cell.val "7")]]
        (fun _ _ => none) = Except.ok ⟨1, 1, []⟩
    ∧ (logsArchivo "F" "bd" "t" "a.csv" (columnasSinEjecucion ["id", "Bi_ejecucion"])
        ⟨1, 1, []⟩).any esCsvInsertadas = false := by
  exact ⟨by decide, by decide⟩

/-- C8 amended: on finalize both modes always emit the plain-text summary
and emit the failure-record list exactly when at least one row failed; the
inserted-row snapshot list is emitted exactly when at least one row
succeeded in interactive mode only — batch mode never emits it. -/
theorem c8_artefactos (fecha bd tabla archivo : String) (columnas : List String)
    (esquema : List (String × String)) (reloj : Reloj)
    (entradas : List EntradaManual) (stM : EstadoManual)
    (hM : cargaManual esquema reloj entradas = some stM)
    (sqlCols fileCols : List String) (rows : List Row)
    (db : Nat → List String → Option String) (stA : EstadoArchivo)
    (hA : cargaPorArchivo sqlCols fileCols rows db = Except.ok stA) :
    ((logsManual fecha bd tabla columnas stM).head?
        = some (Artefacto.resumen (resumenManual fecha bd tabla stM))
      ∧ ((logsManual fecha bd tabla columnas stM).any esCsvInsertadas = true
          ↔ 1 ≤ stM.filas_insertadas)
      ∧ ((logsManual fecha bd tabla columnas stM).any esCsvErrores = true
          ↔ 1 ≤ stM.errores.length))
    ∧ ((logsArchivo fecha bd tabla archivo (columnasSinEjecucion sqlCols) stA).head?
        = some (Artefacto.resumen (resumenArchivo fecha bd tabla archivo stA))
      ∧ ((logsArchivo fecha bd tabla archivo (columnasSinEjecucion sqlCols) stA).any
            esCsvErrores = true
          ↔ 1 ≤ stA.errores.length)
      ∧ (logsArchivo fecha bd tabla archivo (columnasSinEjecucion sqlCols) stA).any
          esCsvInsertadas = false) := by
  have hm := logsManual_emision fecha bd tabla columnas stM
  have ha := logsArchivo_emision fecha bd tabla archivo (columnasSinEjecucion sqlCols) stA
  have hcnt := fold_manual_contadores esquema reloj entradas ⟨0, 0, [], []⟩ stM hM
  have hlink : stM.filas_insertadas_data.length = stM.filas_insertadas := by
    have h2 := hcnt.2.2
    simp at h2
    omega
  refine ⟨⟨hm.1, ?_, ?_⟩, ha.1, ?_, ha.2.2⟩
  · rw [hm.2.1]
    rw [Bool.not_eq_true', List.isEmpty_eq_false_iff_exists_mem]
    constructor
    · rintro ⟨d, hdm⟩
      have : stM.filas_insertadas_data ≠ [] := by
        intro hnil; rw [hnil] at hdm; simp at hdm
      have hlen : 1 ≤ stM.filas_insertadas_data.length := by
        cases hl : stM.filas_insertadas_data with
        | nil => exact absurd hl this
        | cons a as => simp [hl]
      omega
    · intro h1
      have hlen : 1 ≤ stM.filas_insertadas_data.length := by omega
      cases hl : stM.filas_insertadas_data with
      | nil => rw [hl] at hlen; simp at hlen
      | cons a as => exact ⟨a, by simp⟩
  · rw [hm.2.2]
    rw [Bool.not_eq_true', List.isEmpty_eq_false_iff_exists_mem]
    constructor
    · rintro ⟨er, herm⟩
      cases hl : stM.errores with
      | nil => rw [hl] at herm; simp at herm
      | cons a as => simp [hl]
    · intro h1
      cases hl : stM.errores with
      | nil => rw [hl] at h1; simp at h1
      | cons a as => exact ⟨a, by simp⟩
  · rw [ha.2.1]
    rw [Bool.not_eq_true', List.isEmpty_eq_false_iff_exists_mem]
    constructor
    · rintro ⟨er, herm⟩
      cases hl : stA.errores with
      | nil => rw [hl] at herm; simp at herm
      | cons a as => simp [hl]
    · intro h1
      cases hl : stA.errores with
      | nil => rw [hl] at h1; simp at h1
      | cons a as => exact ⟨a, by simp⟩

/-- Closed instance of the amended C8: a one-row interactive session with a
success emits the inserted CSV, and a failure-free batch emits no errors
CSV and never an inserted CSV. -/
theorem c8_artefactos_witness :
    ((logsManual "F" "bd" "t" ["id"] ⟨1, 1, [], [[("id", "7")]]⟩).any esCsvInsertadas = true
      ↔ 1 ≤ (1 : Nat))
    ∧ (logsArchivo "F" "bd" "t" "a.csv" (columnasSinEjecucion ["id", "Bi_ejecucion"])
        ⟨1, 1, []⟩).any esCsvInsertadas = false := by
  have h := c8_artefactos "F" "bd" "t" "a.csv" ["id"] [("id", "int")] ⟨"R", "F"⟩
    [⟨[("id", ["7"])], none⟩] ⟨1, 1, [], [[("id", "7")]]⟩ (by decide)
    ["id", "Bi_ejecucion"] ["id"] [[("id", Cell.val "7")]] (fun _ _ => none)
    ⟨1, 1, []⟩ (by decide)
  exact ⟨h.1.2.1, h.2.2.2⟩

/-- C9 as stated is false on the code: in interactive mode the inserted-row
snapshot includes the managed column Bi_ejecucion with its automatic value,
so snapshots do not carry exactly the non-managed columns. -/
theorem c9_gestionada_contraejemplo :
    cargaManual [("id", "int"), ("Bi_ejecucion", "varchar")] ⟨"R", "F"⟩
        [⟨[("id", ["7"])], none⟩]
      = some ⟨1, 1, [], [[("id", "7"), ("Bi_ejecucion", "F Python")]]⟩
    ∧ isBiEjecucion "Bi_ejecucion" = true
    ∧ Artefacto.csvInsertadas ["id", "Bi_ejecucion"]
        [[("id", "7"), ("Bi_ejecucion", "F Python")]]
      ∈ logsManual "X" "bd" "t" ["id", "Bi_ejecucion"]
          ⟨1, 1, [], [[("id", "7"), ("Bi_ejecucion", "F Python")]]⟩ := by
  exact ⟨by decide, by decide, by decide⟩

/-- C9 amended: batch-mode failure snapshots carry exactly the non-managed
columns (a missing value is recorded as the empty string, never omitted,
and no managed column appears), while interactive-mode snapshots — inserted
and failed alike — carry exactly all schema columns, the managed column
included; CSV rendering preserves the headers and fills missing keys with
the empty string. -/
theorem c9_instantaneas (sqlCols fileCols : List String) (rows : List Row)
    (db : Nat → List String → Option String) (stA : EstadoArchivo)
    (hA : cargaPorArchivo sqlCols fileCols rows db = Except.ok stA)
    (esquema : List (String × String)) (reloj : Reloj)
    (entradas : List EntradaManual) (stM : EstadoManual)
    (hM : cargaManual esquema reloj entradas = some stM) :
    (∀ err ∈ stA.errores,
      err.snapshot.map Prod.fst = columnasSinEjecucion sqlCols
      ∧ ∀ p ∈ err.snapshot, isBiEjecucion p.1 = false)
    ∧ (∀ (cols : List String) (fila : Row) (c : String),
        c ∈ cols → getCell fila c = some Cell.na → (c, "") ∈ rowData cols fila)
    ∧ (∀ (fieldnames : List String) (r : List (String × String)),
        (filaCsv fieldnames r).map Prod.fst = fieldnames)
    ∧ (∀ (fieldnames : List String) (r : List (String × String)) (k : String),
        k ∈ fieldnames → buscar r k = none → (k, "") ∈ filaCsv fieldnames r)
    ∧ (∀ d ∈ stM.filas_insertadas_data, d.map Prod.fst = esquema.map Prod.fst)
    ∧ (∀ er ∈ stM.errores, er.snapshot.map Prod.fst = esquema.map Prod.fst) := by
  have hm := fold_manual_claves esquema reloj entradas ⟨0, 0, [], []⟩ stM
    (by unfold cargaManual at hM; exact hM) (by intro d hd; simp at hd)
    (by intro er her; simp at her)
  refine ⟨?_, ?_, ?_, ?_, hm.1, hm.2⟩
  · intro err herr
    have hkeys : err.snapshot.map Prod.fst = columnasSinEjecucion sqlCols := by
      unfold cargaPorArchivo at hA
      split at hA
      · injection hA with hA2
        rw [← hA2] at herr
        exact fold_archivo_claves (columnasSinEjecucion sqlCols) db rows ⟨0, 0, []⟩
          (by intro e he; simp at he) err herr
      · simp at hA
    refine ⟨hkeys, ?_⟩
    intro p hp
    have hfst : p.1 ∈ columnasSinEjecucion sqlCols := by
      rw [← hkeys]
      exact List.mem_map_of_mem Prod.fst hp
    exact filtro_no_gestionada sqlCols p.1 hfst
  · intro cols fila c hc hna
    unfold rowData
    exact List.mem_map.mpr ⟨c, hc, by rw [hna]; rfl⟩
  · intro fieldnames r
    exact filaCsv_claves fieldnames r
  · intro fieldnames r k hk hb
    unfold filaCsv
    exact List.mem_map.mpr ⟨k, hk, by rw [hb]; rfl⟩

/-- Closed instance of the amended C9: the failure snapshot of a blank
one-column batch row carries exactly the non-managed column with the empty
string. -/
theorem c9_instantaneas_witness :
    ([("id", "")] : List (String × String)).map Prod.fst
      = columnasSinEjecucion ["id", "Bi_ejecucion"] := by
  have h := c9_instantaneas ["id", "Bi_ejecucion"] ["id"] [[("id", Cell.na)]]
    (fun _ _ => none)
    ⟨1, 0, [⟨1, campoBlancoMsg "id" 1, tbOf (campoBlancoMsg "id" 1), [("id", "")]⟩]⟩
    (by decide) [("id", "int")] ⟨"R", "F"⟩ [] ⟨0, 0, [], []⟩ (by decide)
  exact (h.1 ⟨1, campoBlancoMsg "id" 1, tbOf (campoBlancoMsg "id" 1), [("id", "")]⟩
    (by decide)).1

/-- C10: managed-column detection is case-insensitive in both modes: a
column is treated as the managed one exactly when its lower-cased name is
bi_ejecucion, so any case variant is excluded from the non-managed list and
is auto-populated interactively, while every other member survives the
filter. -/
theorem c10_deteccion_gestionada :
    (∀ name, isBiEjecucion name = true ↔ lowerStr name = "bi_ejecucion")
    ∧ (∀ (cols : List String) (name : String),
        lowerStr name = "bi_ejecucion" → name ∉ columnasSinEjecucion cols)
    ∧ (∀ (cols : List String) (name : String), name ∈ cols →
        lowerStr name ≠ "bi_ejecucion" → name ∈ columnasSinEjecucion cols)
    ∧ isBiEjecucion "BI_EJECUCION" = true
    ∧ isBiEjecucion "Bi_Ejecucion" = true
    ∧ isBiEjecucion "bi_ejecucion" = true
    ∧ isBiEjecucion "Bi_ejecucion2" = false
    ∧ (∀ (reloj : Reloj) (inputs : List (String × List String)) (col tipo : String)
        (esquema : List (String × String)) (fila : List PyVal)
        (dict : List (String × String)),
        lowerStr col = "bi_ejecucion" →
        buildFila reloj inputs ((col, tipo) :: esquema) = some (fila, dict) →
        fila.head? = some (valorEjecucion reloj tipo)
        ∧ dict.head? = some (col, pyStr (valorEjecucion reloj tipo))) := by
  refine ⟨?_, ?_, ?_, by decide, by decide, by decide, by decide, ?_⟩
  · intro name
    unfold isBiEjecucion
    exact beq_iff_eq
  · intro cols name hl hmem
    have h := filtro_no_gestionada cols name hmem
    unfold isBiEjecucion at h
    rw [hl] at h
    simp at h
  · intro cols name hc hne
    apply List.mem_filter.mpr
    refine ⟨hc, ?_⟩
    simp [isBiEjecucion, hne]
  · intro reloj inputs col tipo esquema fila dict hl h
    unfold buildFila at h
    rw [if_pos (by unfold isBiEjecucion; rw [hl]; rfl)] at h
    cases hr : buildFila reloj inputs esquema with
    | none => rw [hr] at h; simp at h
    | some pr =>
      obtain ⟨f0, d0⟩ := pr
      rw [hr] at h
      cases h
      exact ⟨rfl, rfl⟩

/-- Closed instance of C10: the upper-case variant is excluded from the
non-managed columns while an ordinary column survives. -/
theorem c10_deteccion_gestionada_witness :
    ("BI_EJECUCION" ∉ columnasSinEjecucion ["id", "BI_EJECUCION"])
    ∧ ("id" ∈ columnasSinEjecucion ["id", "BI_EJECUCION"]) := by
  constructor
  · exact c10_deteccion_gestionada.2.1 ["id", "BI_EJECUCION"] "BI_EJECUCION" (by decide)
  · exact c10_deteccion_gestionada.2.2.1 ["id", "BI_EJECUCION"] "id" (by decide) (by decide)

end ETLSQL
